import Mathlib

/-!
Verification of the Tic-Tac-Toe REINFORCE trainer (`tictactoe.py`).

The game engine (`Environment`), reward table, discounted-return computation
and the board encoding used by `select_action` are shallowly embedded below.
Conventions of the embedding:
  - the board (`self.grid`, a numpy array of 9 ints) is a `List Nat`;
  - Python `assert` failures, `raise` statements, `KeyError` from a dict
    lookup and `IndexError` from `random.choice` on an empty list are all
    modelled as `none` of an `Option` result;
  - Python floats in `compute_returns` are modelled as exact rationals `ℚ`;
  - `random.choice(pos)` is parametrised by a seeded draw `k : Nat`, the
    chosen element being `pos[k % len(pos)]` (`none` when `pos` is empty);
  - the sampling of the policy (`select_action`, torch RNG) is abstracted
    as a stream `agent : Nat → List Nat → Fin 9` giving the action drawn
    at the n-th agent step of a run, since the categorical distribution is
    over the 9 moves.
-/

namespace TicTacToe

/-- The six status strings of `Environment` (`STATUS_VALID_MOVE = 'valid'`,
`STATUS_INVALID_MOVE = 'inv'`, `STATUS_WIN = 'win'`, `STATUS_TIE = 'tie'`,
`STATUS_LOSE = 'lose'`, `STATUS_DONE = 'done'`). -/
inductive Status where
  | valid
  | inv
  | win
  | tie
  | lose
  | done
  deriving DecidableEq, Repr

/-- The mutable state of an `Environment` object: `self.grid` (9 cells,
`0` empty, `1` player one, `2` player two), `self.turn` (1 or 2) and
`self.done`. -/
structure EnvState where
  grid : List Nat
  turn : Nat
  done : Bool
  deriving DecidableEq, Repr

/-- `Environment.reset`: empty grid, player 1 to move, not done. -/
def resetState : EnvState :=
  ⟨List.replicate 9 0, 1, false⟩

/-- Reading `self.grid[i]` (grids have length 9 in every reachable state,
so the default is irrelevant there). -/
def cell (g : List Nat) (i : Nat) : Nat :=
  g.getD i 0

/-- `Environment.win_set`: the 8 winning triples (3 rows, 3 columns,
2 diagonals). -/
def win_set : List (Nat × Nat × Nat) :=
  [(0, 1, 2), (3, 4, 5), (6, 7, 8),
   (0, 3, 6), (1, 4, 7), (2, 5, 8),
   (0, 4, 8), (2, 4, 6)]

/-- `Environment.check_win`: for each triple build the set
`s = set([grid[p] for p in pos])` (here: `List.dedup` of the three values)
and test `len(s) == 1 and (0 not in s)`. -/
def check_win (g : List Nat) : Bool :=
  win_set.any fun t =>
    let s := [cell g t.1, cell g t.2.1, cell g t.2.2].dedup
    decide (s.length = 1) && decide (0 ∉ s)

/-- The body of `Environment.step` after the `assert`: check `done`, check
the target cell, otherwise mark the cell, flip the turn, then run the win
check and the tie check (`all([p != 0 for p in self.grid])`). -/
def stepCore (e : EnvState) (a : Nat) : EnvState × Status :=
  if e.done then (e, Status.done)
  else if cell e.grid a ≠ 0 then (e, Status.inv)
  else
    let g := e.grid.set a e.turn
    let t := if e.turn = 1 then 2 else 1
    if check_win g then (⟨g, t, true⟩, Status.win)
    else if g.all (fun p => p != 0) then (⟨g, t, true⟩, Status.tie)
    else (⟨g, t, false⟩, Status.valid)

/-- `Environment.step`, including its precondition
`assert type(action) == int and action >= 0 and action < 9`: the argument
type `Int` mirrors the `type(action) == int` check, a failing range check
is a fatal `AssertionError`, modelled as `none`. -/
def step (e : EnvState) (action : Int) : Option (EnvState × Status) :=
  if 0 ≤ action ∧ action < 9 then some (stepCore e action.toNat) else none

/-- `pos = [i for i in range(9) if self.grid[i] == 0]` in
`Environment.random_step`. -/
def emptyCells (g : List Nat) : List Nat :=
  (List.range 9).filter fun i => cell g i == 0

/-- `random.choice(l)` parametrised by the seeded draw `k`; on an empty
list the call raises `IndexError`, modelled as `none`. -/
def randomChoice (l : List Nat) (k : Nat) : Option Nat :=
  l.get? (k % l.length)

/-- `Environment.random_step`: choose a random unoccupied cell and play it
via `step`. -/
def random_step (e : EnvState) (k : Nat) : Option (EnvState × Status) :=
  match randomChoice (emptyCells e.grid) k with
  | none => none
  | some m => step e (Int.ofNat m)

/-- `Environment.play_against_random`: play the agent's move; if the game
is not done and it is player 2's turn, let the random agent reply; if the
reply finishes the game remap `WIN ↦ LOSE` and `TIE ↦ TIE`, and any other
finishing status `raise ValueError` (modelled as `none`). -/
def play_against_random (e : EnvState) (action : Int) (k : Nat) :
    Option (EnvState × Status) :=
  match step e action with
  | none => none
  | some (e1, st1) =>
    if e1.done = false ∧ e1.turn = 2 then
      match random_step e1 k with
      | none => none
      | some (e2, s2) =>
        if e2.done then
          if s2 = Status.win then some (e2, Status.lose)
          else if s2 = Status.tie then some (e2, Status.tie)
          else none
        else some (e2, st1)
    else some (e1, st1)

/-- `compute_returns(rewards, gamma)`: the backward loop
`G[i] = rewards[i]*1.0` at the last index and
`G[i] = rewards[i] + gamma * G[i+1]` otherwise, written as structural
recursion on the list (the suffix is computed first, exactly as the
reversed loop does). Floats are modelled as exact rationals. -/
def compute_returns (rewards : List ℚ) (gamma : ℚ) : List ℚ :=
  match rewards with
  | [] => []
  | r :: rest =>
    match compute_returns rest gamma with
    | [] => [r * 1]
    | g0 :: gs => (r + gamma * g0) :: g0 :: gs

/-- `get_reward(status)`: the dict literal hardcoded in the function body.
A status outside the five keys (`STATUS_DONE`) raises `KeyError`,
modelled as `none`. -/
def get_reward (s : Status) : Option Int :=
  match s with
  | Status.valid => some 10
  | Status.inv => some (-500)
  | Status.win => some 1000
  | Status.tie => some (-20)
  | Status.lose => some (-30)
  | Status.done => none

/-- The board encoding built inside `select_action`:
`torch.zeros(3, 9).scatter_(0, state, 1).view(1, 27)`. The scatter places
a `1` at row `grid[j]`, column `j` of a `3 × 9` tensor, and `view`
flattens it row-major, so flat index `idx = v * 9 + j` holds `1` exactly
when cell `idx % 9` contains value `idx / 9`. -/
def encode (g : List Nat) : List Nat :=
  (List.range 27).map fun idx => if cell g (idx % 9) = idx / 9 then 1 else 0

/-- Encoding in the order claimed by the spec for comparison: cell-major,
the 3 indicators for cell 0 first (flat index `idx = j * 3 + v`). -/
def encodeCellMajor (g : List Nat) : List Nat :=
  (List.range 27).map fun idx => if cell g (idx / 3) = idx % 3 then 1 else 0

/-- The win predicate as the spec words it: one of the 8 fixed triples
has three equal, non-empty cells. -/
def winSpec (g : List Nat) : Prop :=
  ∃ t ∈ win_set,
    cell g t.1 = cell g t.2.1 ∧ cell g t.2.1 = cell g t.2.2 ∧ cell g t.1 ≠ 0

lemma dedup_three (a b c : Nat) :
    ([a, b, c].dedup.length = 1 ∧ 0 ∉ [a, b, c].dedup) ↔
      (a = b ∧ b = c ∧ a ≠ 0) := by
  constructor
  · rintro ⟨h1, h0⟩
    obtain ⟨x, hx⟩ := List.length_eq_one.mp h1
    have ha : a ∈ [a, b, c].dedup := List.mem_dedup.mpr (by simp)
    have hb : b ∈ [a, b, c].dedup := List.mem_dedup.mpr (by simp)
    have hc : c ∈ [a, b, c].dedup := List.mem_dedup.mpr (by simp)
    rw [hx] at ha hb hc h0
    simp at ha hb hc h0
    subst ha hb hc
    exact ⟨rfl, rfl, fun h => h0 h.symm⟩
  · rintro ⟨rfl, rfl, h0⟩
    constructor
    · simp [List.dedup_cons_of_mem]
    · rw [List.mem_dedup]
      simp [Ne.symm h0]

lemma check_win_iff_winSpec (g : List Nat) : check_win g = true ↔ winSpec g := by
  unfold check_win winSpec
  rw [List.any_eq_true]
  apply exists_congr
  intro t
  apply and_congr_right
  intro _
  simp only [Bool.and_eq_true, decide_eq_true_eq]
  exact dedup_three (cell g t.1) (cell g t.2.1) (cell g t.2.2)

lemma stepCore_of_done (e : EnvState) (a : Nat) (h : e.done = true) :
    stepCore e a = (e, Status.done) := by
  simp [stepCore, h]

lemma stepCore_of_occupied (e : EnvState) (a : Nat) (hd : e.done = false)
    (ho : cell e.grid a ≠ 0) : stepCore e a = (e, Status.inv) := by
  simp [stepCore, hd, ho]

lemma stepCore_of_empty (e : EnvState) (a : Nat) (hd : e.done = false)
    (he : cell e.grid a = 0) :
    stepCore e a =
      (let g := e.grid.set a e.turn
       let t := if e.turn = 1 then 2 else 1
       if check_win g then (⟨g, t, true⟩, Status.win)
       else if g.all (fun p => p != 0) then (⟨g, t, true⟩, Status.tie)
       else (⟨g, t, false⟩, Status.valid)) := by
  simp [stepCore, hd, he]

lemma step_of_range (e : EnvState) (a : Int) (h0 : 0 ≤ a) (h9 : a < 9) :
    step e a = some (stepCore e a.toNat) := by
  simp [step, h0, h9]

lemma mem_emptyCells (g : List Nat) (m : Nat) :
    m ∈ emptyCells g ↔ m < 9 ∧ cell g m = 0 := by
  simp [emptyCells, List.mem_filter, List.mem_range]

lemma emptyCells_ne_nil (g : List Nat) (hlen : g.length = 9)
    (hfull : g.all (fun p => p != 0) = false) : emptyCells g ≠ [] := by
  have : ¬ ∀ x ∈ g, (x != 0) = true := by
    intro hall
    rw [← List.all_eq_true] at hall
    rw [hall] at hfull
    simp at hfull
  push_neg at this
  obtain ⟨x, hx, hx0⟩ := this
  simp at hx0
  subst hx0
  obtain ⟨i, hi, hig⟩ := List.mem_iff_getElem.mp hx
  intro hnil
  have hmem : i ∈ emptyCells g := by
    rw [mem_emptyCells]
    refine ⟨by omega, ?_⟩
    rw [cell, List.getD_eq_getElem?_getD, List.getElem?_eq_getElem hi, hig]
    rfl
  rw [hnil] at hmem
  exact List.not_mem_nil i hmem

lemma randomChoice_of_ne_nil (l : List Nat) (k : Nat) (h : l ≠ []) :
    ∃ m, randomChoice l k = some m ∧ m ∈ l := by
  have hpos : 0 < l.length := List.length_pos.mpr h
  have hlt : k % l.length < l.length := Nat.mod_lt k hpos
  refine ⟨l.get ⟨k % l.length, hlt⟩, ?_, List.get_mem l (k % l.length) hlt⟩
  rw [randomChoice, List.get?_eq_get hlt]

lemma randomChoice_surjective (l : List Nat) (c : Nat) (hc : c ∈ l) :
    ∃ k, randomChoice l k = some c := by
  obtain ⟨n, hn⟩ := List.mem_iff_get.mp hc
  refine ⟨n.val, ?_⟩
  rw [randomChoice, Nat.mod_eq_of_lt n.isLt, List.get?_eq_get n.isLt, hn]

lemma compute_returns_cons (r : ℚ) (rest : List ℚ) (gamma : ℚ) :
    compute_returns (r :: rest) gamma =
      match compute_returns rest gamma with
      | [] => [r * 1]
      | g0 :: gs => (r + gamma * g0) :: g0 :: gs := rfl

lemma compute_returns_length (gamma : ℚ) :
    ∀ r : List ℚ, (compute_returns r gamma).length = r.length
  | [] => rfl
  | r :: rest => by
    have ih := compute_returns_length gamma rest
    rw [compute_returns_cons]
    cases h : compute_returns rest gamma with
    | nil =>
      rw [h] at ih
      simp only [List.length_nil] at ih
      simp [← ih]
    | cons g0 gs =>
      rw [h] at ih
      simp only [List.length_cons] at ih ⊢
      omega

lemma compute_returns_getD (gamma : ℚ) :
    ∀ (r : List ℚ) (t : Nat), t + 1 < r.length →
      (compute_returns r gamma).getD t 0 =
        r.getD t 0 + gamma * (compute_returns r gamma).getD (t + 1) 0
  | [], t, ht => by simp at ht
  | r :: rest, t, ht => by
    have hlen := compute_returns_length gamma rest
    rw [compute_returns_cons]
    cases h : compute_returns rest gamma with
    | nil =>
      rw [h] at hlen
      simp only [List.length_nil] at hlen
      simp only [List.length_cons] at ht
      exfalso
      omega
    | cons g0 gs =>
      cases t with
      | zero => simp
      | succ t' =>
        have ih := compute_returns_getD gamma rest t'
          (by simp only [List.length_cons] at ht; omega)
        rw [h] at ih
        simpa using ih

lemma compute_returns_last (gamma : ℚ) :
    ∀ r : List ℚ, r ≠ [] →
      (compute_returns r gamma).getD (r.length - 1) 0 = r.getD (r.length - 1) 0
  | [], h => absurd rfl h
  | [r], _ => by simp [compute_returns]
  | r :: r1 :: rest, _ => by
    have ih := compute_returns_last gamma (r1 :: rest) (by simp)
    have hlen := compute_returns_length gamma (r1 :: rest)
    rw [compute_returns_cons]
    cases h : compute_returns (r1 :: rest) gamma with
    | nil => rw [h] at hlen; simp at hlen
    | cons g0 gs =>
      rw [h] at ih hlen
      simp only [List.length_cons] at ih ⊢
      rw [show rest.length + 1 + 1 - 1 = rest.length + 1 by omega]
      rw [show rest.length + 1 - 1 = rest.length by omega] at ih
      simpa using ih

lemma getD_map_range (n : Nat) (f : Nat → Nat) (i : Nat) (h : i < n) :
    ((List.range n).map f).getD i 0 = f i := by
  rw [List.getD_eq_getElem?_getD, List.getElem?_map, List.getElem?_range h]
  rfl

/-- C1: `compute_returns` returns the list `G` of the length of `r` with
`G_{T-1} = r_{T-1}` and `G_t = r_t + gamma * G_{t+1}` for `t < T-1`, and
the two quoted examples hold exactly (in exact arithmetic). -/
theorem compute_returns_spec (r : List ℚ) (gamma : ℚ)
    (_hg : 0 ≤ gamma ∧ gamma ≤ 1) :
    (compute_returns r gamma).length = r.length ∧
    (r ≠ [] →
      (compute_returns r gamma).getD (r.length - 1) 0 =
        r.getD (r.length - 1) 0) ∧
    (∀ t, t + 1 < r.length →
      (compute_returns r gamma).getD t 0 =
        r.getD t 0 + gamma * (compute_returns r gamma).getD (t + 1) 0) ∧
    compute_returns [0, 0, 0, 1] 1 = [1, 1, 1, 1] ∧
    compute_returns [0, 0, 0, 1] (9 / 10) = [729 / 1000, 81 / 100, 9 / 10, 1] := by
  refine ⟨compute_returns_length gamma r, compute_returns_last gamma r,
    compute_returns_getD gamma r, ?_, ?_⟩
  · norm_num [compute_returns]
  · norm_num [compute_returns]

/-- Witness for C1 at `r = [0,0,0,1]`, `gamma = 9/10`, `t = 0`. -/
theorem compute_returns_spec_witness :
    (compute_returns [0, 0, 0, 1] (9 / 10)).getD 0 0 =
      ([0, 0, 0, 1] : List ℚ).getD 0 0 +
        (9 / 10) * (compute_returns [0, 0, 0, 1] (9 / 10)).getD 1 0 :=
  (compute_returns_spec [0, 0, 0, 1] (9 / 10) (by norm_num)).2.2.1 0 (by norm_num)

/-- C2: on an episode whose done flag is set, `step` returns status DONE
and leaves board, turn and done flag unchanged (the returned state is the
input state itself), for every action in `[0, 8]`. -/
theorem step_done_frame (e : EnvState) (a : Int) (hd : e.done = true)
    (h0 : 0 ≤ a) (h9 : a < 9) : step e a = some (e, Status.done) := by
  rw [step_of_range e a h0 h9, stepCore_of_done e a.toNat hd]

/-- Witness for C2 on a finished empty-board state with action 4. -/
theorem step_done_frame_witness :
    step ⟨List.replicate 9 0, 1, true⟩ 4 =
      some (⟨List.replicate 9 0, 1, true⟩, Status.done) :=
  step_done_frame ⟨List.replicate 9 0, 1, true⟩ 4 rfl (by decide) (by decide)

/-- C3: on a non-done state, playing an occupied cell returns
INVALID_MOVE and leaves board and turn unchanged (the returned state is
the input state itself, so the turn does not advance). -/
theorem step_occupied_frame (e : EnvState) (a : Int) (hd : e.done = false)
    (h0 : 0 ≤ a) (h9 : a < 9) (ho : cell e.grid a.toNat ≠ 0) :
    step e a = some (e, Status.inv) := by
  rw [step_of_range e a h0 h9, stepCore_of_occupied e a.toNat hd ho]

/-- Witness for C3: player 2 replays a cell player 1 occupies. -/
theorem step_occupied_frame_witness :
    step ⟨[1, 0, 0, 0, 0, 0, 0, 0, 0], 2, false⟩ 0 =
      some (⟨[1, 0, 0, 0, 0, 0, 0, 0, 0], 2, false⟩, Status.inv) :=
  step_occupied_frame ⟨[1, 0, 0, 0, 0, 0, 0, 0, 0], 2, false⟩ 0 rfl
    (by decide) (by decide) (by decide)

/-- C6 counterexample: already on the empty board, the encoding actually
built in `select_action` differs from the claimed cell-major flattening
(the actual vector starts with the nine empty-cell indicators). -/
theorem encode_ne_cell_major :
    encode (List.replicate 9 0) ≠ encodeCellMajor (List.replicate 9 0) := by
  decide

/-- C6 amended: the encoding is the 27-length indicator vector flattened
value-major (plane-major): entry `v * 9 + j` is `1` iff cell `j` holds
value `v` (empty plane first, then player-one, then player-two), and it
is one-hot per cell when the cell values lie in `{0, 1, 2}`. -/
theorem encode_value_major (g : List Nat) (hvals : ∀ x ∈ g, x < 3)
    (hlen : g.length = 9) :
    (encode g).length = 27 ∧
    (∀ v j, v < 3 → j < 9 →
      (encode g).getD (v * 9 + j) 0 = if cell g j = v then 1 else 0) ∧
    (∀ j, j < 9 →
      (encode g).getD j 0 + (encode g).getD (9 + j) 0 +
        (encode g).getD (18 + j) 0 = 1) := by
  have hpart : ∀ v j, v < 3 → j < 9 →
      (encode g).getD (v * 9 + j) 0 = if cell g j = v then 1 else 0 := by
    intro v j hv hj
    rw [encode, getD_map_range 27 _ _ (by omega)]
    have h1 : (v * 9 + j) % 9 = j := by omega
    have h2 : (v * 9 + j) / 9 = v := by omega
    rw [h1, h2]
  refine ⟨by simp [encode], hpart, ?_⟩
  intro j hj
  have hjl : j < g.length := by omega
  have hcell : cell g j < 3 := by
    have hm := hvals _ (List.getElem_mem hjl)
    rwa [cell, List.getD_eq_getElem?_getD, List.getElem?_eq_getElem hjl]
  have e0 := hpart 0 j (by omega) hj
  have e1 := hpart 1 j (by omega) hj
  have e2 := hpart 2 j (by omega) hj
  simp only [Nat.zero_mul, Nat.zero_add, Nat.one_mul] at e0 e1 e2
  rw [e0, e1, show 2 * 9 + j = 18 + j by omega] at *
  rw [e2]
  split_ifs <;> omega

/-- Witness for C6 (amended) on a one-move board. -/
theorem encode_value_major_witness :
    (encode [1, 0, 0, 0, 0, 0, 0, 0, 0]).getD (1 * 9 + 0) 0 =
      if cell [1, 0, 0, 0, 0, 0, 0, 0, 0] 0 = 1 then 1 else 0 :=
  (encode_value_major [1, 0, 0, 0, 0, 0, 0, 0, 0] (by decide) (by decide)).2.1
    1 0 (by decide) (by decide)

/-- C7: the reward table maps VALID_MOVE to 10, INVALID_MOVE to -500,
WIN to 1000, TIE to -20 and LOSE to -30 (the table is a literal inside
`get_reward`; nothing in its signature makes it configurable). -/
theorem get_reward_table :
    get_reward Status.valid = some 10 ∧ get_reward Status.inv = some (-500) ∧
    get_reward Status.win = some 1000 ∧ get_reward Status.tie = some (-20) ∧
    get_reward Status.lose = some (-30) :=
  ⟨rfl, rfl, rfl, rfl, rfl⟩

/-- C8: an action outside `[0, 8]` makes the precondition `assert` of
`step` fail (a fatal fault, no status is returned), and every in-range
integer action passes the assertion and yields a status. -/
theorem step_assert_spec :
    (∀ (e : EnvState) (a : Int), a < 0 ∨ 9 ≤ a → step e a = none) ∧
    (∀ (e : EnvState) (a : Int), 0 ≤ a → a < 9 →
      ∃ res, step e a = some res) := by
  constructor
  · intro e a h
    rw [step, if_neg]
    rintro ⟨h0, h9⟩
    rcases h with h | h <;> omega
  · intro e a h0 h9
    exact ⟨stepCore e a.toNat, step_of_range e a h0 h9⟩

/-- Witness for C8: `-1` and `9` abort, `3` returns a status. -/
theorem step_assert_spec_witness :
    step resetState (-1) = none ∧ step resetState 9 = none ∧
      ∃ res, step resetState 3 = some res :=
  ⟨step_assert_spec.1 resetState (-1) (Or.inl (by decide)),
   step_assert_spec.1 resetState 9 (Or.inr (by decide)),
   step_assert_spec.2 resetState 3 (by decide) (by decide)⟩

/-- The state component of one `play_against_random` call with a fixed
action and opponent draw (the state is kept on a fault). -/
def parState (a : Int) (k : Nat) (s : EnvState) : EnvState :=
  match play_against_random s a k with
  | some p => p.1
  | none => s

/-- C10: on player 1's turn, an agent move onto an occupied cell makes
`play_against_random` return INVALID_MOVE with the state (board, turn,
done flag) unchanged and no opponent reply, so any number of repetitions
leaves the position fixed while producing INVALID_MOVE each time. -/
theorem play_invalid_accumulates (e : EnvState) (a : Int) (k : Nat)
    (hd : e.done = false) (ht : e.turn = 1) (h0 : 0 ≤ a) (h9 : a < 9)
    (ho : cell e.grid a.toNat ≠ 0) :
    play_against_random e a k = some (e, Status.inv) ∧
    ∀ n : Nat, Nat.iterate (parState a k) n e = e := by
  have hstep : step e a = some (e, Status.inv) := by
    rw [step_of_range e a h0 h9, stepCore_of_occupied e a.toNat hd ho]
  have hplay : play_against_random e a k = some (e, Status.inv) := by
    simp [play_against_random, hstep, ht]
  refine ⟨hplay, ?_⟩
  intro n
  induction n with
  | zero => rfl
  | succ m ih =>
    rw [Function.iterate_succ_apply]
    have hfix : parState a k e = e := by simp [parState, hplay]
    rw [hfix, ih]

/-- Witness for C10: five consecutive invalid moves from one position. -/
theorem play_invalid_accumulates_witness :
    play_against_random ⟨[1, 0, 0, 0, 0, 0, 0, 0, 0], 1, false⟩ 0 0 =
      some (⟨[1, 0, 0, 0, 0, 0, 0, 0, 0], 1, false⟩, Status.inv) ∧
    Nat.iterate (parState 0 0) 5 ⟨[1, 0, 0, 0, 0, 0, 0, 0, 0], 1, false⟩ =
      ⟨[1, 0, 0, 0, 0, 0, 0, 0, 0], 1, false⟩ :=
  ⟨(play_invalid_accumulates ⟨[1, 0, 0, 0, 0, 0, 0, 0, 0], 1, false⟩ 0 0
      rfl rfl (by decide) (by decide) (by decide)).1,
   (play_invalid_accumulates ⟨[1, 0, 0, 0, 0, 0, 0, 0, 0], 1, false⟩ 0 0
      rfl rfl (by decide) (by decide) (by decide)).2 5⟩

/-- C4: the win check holds exactly when one of the 8 fixed triples has
three equal, non-empty cells; after an accepted move, `step` returns WIN
with the done flag set when a win exists, else TIE with the done flag set
when all 9 cells are occupied, else VALID_MOVE with the done flag clear
(the turn having flipped in all three cases). -/
theorem check_win_spec_and_step_outcomes :
    (∀ g : List Nat, check_win g = true ↔ winSpec g) ∧
    (∀ (e : EnvState) (a : Int), e.done = false → 0 ≤ a → a < 9 →
      cell e.grid a.toNat = 0 →
      ((winSpec (e.grid.set a.toNat e.turn) →
        step e a = some (⟨e.grid.set a.toNat e.turn,
          if e.turn = 1 then 2 else 1, true⟩, Status.win)) ∧
       (¬ winSpec (e.grid.set a.toNat e.turn) →
        (e.grid.set a.toNat e.turn).all (fun p => p != 0) = true →
        step e a = some (⟨e.grid.set a.toNat e.turn,
          if e.turn = 1 then 2 else 1, true⟩, Status.tie)) ∧
       (¬ winSpec (e.grid.set a.toNat e.turn) →
        (e.grid.set a.toNat e.turn).all (fun p => p != 0) = false →
        step e a = some (⟨e.grid.set a.toNat e.turn,
          if e.turn = 1 then 2 else 1, false⟩, Status.valid)))) := by
  refine ⟨check_win_iff_winSpec, ?_⟩
  intro e a hd h0 h9 he
  have hstep := step_of_range e a h0 h9
  have hcore := stepCore_of_empty e a.toNat hd he
  simp only [] at hcore
  refine ⟨?_, ?_, ?_⟩
  · intro hw
    rw [← check_win_iff_winSpec] at hw
    rw [hstep, hcore]
    simp [hw]
  · intro hw hfull
    rw [← check_win_iff_winSpec] at hw
    rw [hstep, hcore]
    simp [hw, hfull]
  · intro hw hfull
    rw [← check_win_iff_winSpec] at hw
    rw [hstep, hcore]
    simp [hw, hfull]

/-- Witness for C4: completing the top row wins, flipping turn and done. -/
theorem check_win_spec_and_step_outcomes_witness :
    step ⟨[1, 1, 0, 2, 2, 0, 0, 0, 0], 1, false⟩ 2 =
      some (⟨[1, 1, 1, 2, 2, 0, 0, 0, 0], 2, true⟩, Status.win) := by
  have h := (check_win_spec_and_step_outcomes.2
    ⟨[1, 1, 0, 2, 2, 0, 0, 0, 0], 1, false⟩ 2 rfl (by decide) (by decide)
    (by decide)).1 (by unfold winSpec; decide)
  simpa using h

lemma play_unfold_no_reply (e : EnvState) (a : Int) (k : Nat)
    (e1 : EnvState) (st1 : Status) (h : step e a = some (e1, st1))
    (hc : ¬ (e1.done = false ∧ e1.turn = 2)) :
    play_against_random e a k = some (e1, st1) := by
  simp only [play_against_random, h]
  rw [if_neg hc]

lemma play_unfold_reply (e : EnvState) (a : Int) (k : Nat) (e1 : EnvState)
    (st1 : Status) (e2 : EnvState) (s2 : Status)
    (h : step e a = some (e1, st1)) (hc : e1.done = false ∧ e1.turn = 2)
    (h2 : random_step e1 k = some (e2, s2)) :
    play_against_random e a k =
      (if e2.done then
        if s2 = Status.win then some (e2, Status.lose)
        else if s2 = Status.tie then some (e2, Status.tie)
        else none
      else some (e2, st1)) := by
  simp only [play_against_random, h]
  rw [if_pos hc]
  simp only [h2]

lemma random_step_eq (e : EnvState) (k : Nat) (m : Nat)
    (hm : randomChoice (emptyCells e.grid) k = some m) :
    random_step e k = step e (Int.ofNat m) := by
  simp only [random_step, hm]

/-- The property C5 asserts of `play_against_random`, as a predicate of
the pre-state, the agent action and the opponent draw: the agent's move
is applied first; the opponent replies exactly when the game is not done
and it is player 2's turn; the reply targets a cell of the empty-cell
list (each of which some draw selects), is never INVALID_MOVE, and the
composite status is LOSE when the reply WINs, TIE when it TIEs, and the
agent's own status when the reply leaves the game open. -/
def PlayVsRandomClaim (e : EnvState) (a : Int) (k : Nat) : Prop :=
  ∃ e1 st1, step e a = some (e1, st1) ∧
    (¬ (e1.done = false ∧ e1.turn = 2) →
      play_against_random e a k = some (e1, st1)) ∧
    ((e1.done = false ∧ e1.turn = 2) →
      (∀ c ∈ emptyCells e1.grid,
        ∃ k2, randomChoice (emptyCells e1.grid) k2 = some c) ∧
      ∃ m, randomChoice (emptyCells e1.grid) k = some m ∧
        m ∈ emptyCells e1.grid ∧
        ∃ e2 s2, step e1 (Int.ofNat m) = some (e2, s2) ∧
          (s2 = Status.valid ∨ s2 = Status.win ∨ s2 = Status.tie) ∧
          (s2 = Status.win → e2.done = true ∧
            play_against_random e a k = some (e2, Status.lose)) ∧
          (s2 = Status.tie → e2.done = true ∧
            play_against_random e a k = some (e2, Status.tie)) ∧
          (s2 = Status.valid → e2.done = false ∧
            play_against_random e a k = some (e2, st1)))

lemma stepCore_accepted_p1 (e : EnvState) (a : Nat) (hd : e.done = false)
    (he : cell e.grid a = 0) (ht : e.turn = 1) :
    stepCore e a =
      (if check_win (e.grid.set a 1) then
        (⟨e.grid.set a 1, 2, true⟩, Status.win)
       else if (e.grid.set a 1).all (fun p => p != 0) then
        (⟨e.grid.set a 1, 2, true⟩, Status.tie)
       else (⟨e.grid.set a 1, 2, false⟩, Status.valid)) := by
  simp [stepCore, hd, he, ht]

lemma stepCore_accepted_p2 (e : EnvState) (a : Nat) (hd : e.done = false)
    (he : cell e.grid a = 0) (ht : e.turn = 2) :
    stepCore e a =
      (if check_win (e.grid.set a 2) then
        (⟨e.grid.set a 2, 1, true⟩, Status.win)
       else if (e.grid.set a 2).all (fun p => p != 0) then
        (⟨e.grid.set a 2, 1, true⟩, Status.tie)
       else (⟨e.grid.set a 2, 1, false⟩, Status.valid)) := by
  simp [stepCore, hd, he, ht]

/-- C5: from any length-9 board on player 1's turn and any agent action
in `[0, 8]`, `play_against_random` satisfies `PlayVsRandomClaim` (and in
particular never reaches its `raise` branch). -/
theorem play_against_random_spec (e : EnvState) (a : Int) (k : Nat)
    (hlen : e.grid.length = 9) (ht : e.turn = 1) (h0 : 0 ≤ a) (h9 : a < 9) :
    PlayVsRandomClaim e a k := by
  have hstep := step_of_range e a h0 h9
  cases hd : e.done with
  | true =>
    have hcore := stepCore_of_done e a.toNat hd
    rw [hcore] at hstep
    exact ⟨e, Status.done,
      hstep, fun _ => play_unfold_no_reply e a k e Status.done hstep
        (by simp [hd]),
      fun hc => absurd hc (by simp [hd])⟩
  | false =>
    by_cases ho : cell e.grid a.toNat = 0
    · have hcore := stepCore_accepted_p1 e a.toNat hd ho ht
      cases hw : check_win (e.grid.set a.toNat 1) with
      | true =>
        rw [hw] at hcore
        simp only [if_true] at hcore
        rw [hcore] at hstep
        exact ⟨⟨e.grid.set a.toNat 1, 2, true⟩, Status.win, hstep,
          fun _ => play_unfold_no_reply e a k _ _ hstep (by simp),
          fun hc => absurd hc (by simp)⟩
      | false =>
        rw [hw] at hcore
        simp only [Bool.false_eq_true, if_false] at hcore
        cases hfull : (e.grid.set a.toNat 1).all (fun p => p != 0) with
        | true =>
          rw [hfull] at hcore
          simp only [if_true] at hcore
          rw [hcore] at hstep
          exact ⟨⟨e.grid.set a.toNat 1, 2, true⟩, Status.tie, hstep,
            fun _ => play_unfold_no_reply e a k _ _ hstep (by simp),
            fun hc => absurd hc (by simp)⟩
        | false =>
          rw [hfull] at hcore
          simp only [Bool.false_eq_true, if_false] at hcore
          rw [hcore] at hstep
          refine ⟨⟨e.grid.set a.toNat 1, 2, false⟩, Status.valid, hstep,
            fun hc => absurd ⟨rfl, rfl⟩ hc, fun _ => ?_⟩
          have hglen : (e.grid.set a.toNat 1).length = 9 := by
            rw [List.length_set]
            exact hlen
          have hne : emptyCells (e.grid.set a.toNat 1) ≠ [] :=
            emptyCells_ne_nil _ hglen hfull
          obtain ⟨m, hm, hmem⟩ := randomChoice_of_ne_nil _ k hne
          obtain ⟨hm9, hm0⟩ := (mem_emptyCells _ m).mp hmem
          refine ⟨fun c hc => randomChoice_surjective _ c hc, m, hm, hmem, ?_⟩
          set e1 : EnvState := ⟨e.grid.set a.toNat 1, 2, false⟩ with he1
          have hstep2 : step e1 (Int.ofNat m) = some (stepCore e1 m) := by
            rw [step_of_range e1 (Int.ofNat m) (Int.ofNat_nonneg m) (Int.ofNat_lt.mpr hm9)]
            simp
          have hcore2 := stepCore_accepted_p2 e1 m rfl hm0 rfl
          cases hw2 : check_win (e1.grid.set m 2) with
          | true =>
            rw [hw2] at hcore2
            simp only [if_true] at hcore2
            rw [hcore2] at hstep2
            refine ⟨⟨e1.grid.set m 2, 1, true⟩, Status.win, hstep2,
              Or.inr (Or.inl rfl), fun _ => ⟨rfl, ?_⟩,
              fun hx => absurd hx (by decide),
              fun hx => absurd hx (by decide)⟩
            rw [play_unfold_reply e a k e1 Status.valid _ _ hstep ⟨rfl, rfl⟩
              (by rw [random_step_eq e1 k m hm, hstep2])]
            simp
          | false =>
            rw [hw2] at hcore2
            simp only [Bool.false_eq_true, if_false] at hcore2
            cases hfull2 : (e1.grid.set m 2).all (fun p => p != 0) with
            | true =>
              rw [hfull2] at hcore2
              simp only [if_true] at hcore2
              rw [hcore2] at hstep2
              refine ⟨⟨e1.grid.set m 2, 1, true⟩, Status.tie, hstep2,
                Or.inr (Or.inr rfl),
                fun hx => absurd hx (by decide), fun _ => ⟨rfl, ?_⟩,
                fun hx => absurd hx (by decide)⟩
              rw [play_unfold_reply e a k e1 Status.valid _ _ hstep ⟨rfl, rfl⟩
                (by rw [random_step_eq e1 k m hm, hstep2])]
              simp
            | false =>
              rw [hfull2] at hcore2
              simp only [Bool.false_eq_true, if_false] at hcore2
              rw [hcore2] at hstep2
              refine ⟨⟨e1.grid.set m 2, 1, false⟩, Status.valid, hstep2,
                Or.inl rfl,
                fun hx => absurd hx (by decide),
                fun hx => absurd hx (by decide), fun _ => ⟨rfl, ?_⟩⟩
              rw [play_unfold_reply e a k e1 Status.valid _ _ hstep ⟨rfl, rfl⟩
                (by rw [random_step_eq e1 k m hm, hstep2])]
              simp
    · have hcore := stepCore_of_occupied e a.toNat hd ho
      rw [hcore] at hstep
      exact ⟨e, Status.inv, hstep,
        fun _ => play_unfold_no_reply e a k e Status.inv hstep
          (by simp [ht]),
        fun hc => absurd hc (by simp [ht])⟩

/-- Witness for C5 from the reset state with agent action 0 and draw 0. -/
theorem play_against_random_spec_witness : PlayVsRandomClaim resetState 0 0 :=
  play_against_random_spec resetState 0 0 (by decide) rfl (by decide)
    (by decide)

/-- The four counters `win, lose, tie, invalid` tallied by `rate`. -/
structure Tally where
  win : Nat
  lose : Nat
  tie : Nat
  invalid : Nat
  deriving DecidableEq, Repr

/-- Whether `play_against_random` lets the random opponent reply from
state `e` on agent action `a` (the test `not done and self.turn == 2`
after the agent's move); used to thread the opponent's draw counter. -/
def replyHappens (e : EnvState) (a : Int) : Bool :=
  match step e a with
  | none => false
  | some (e1, _) => decide (e1.done = false ∧ e1.turn = 2)

/-- The `while not done` loop of one session of `rate`: sample an action
from the policy stream, advance via `play_against_random`, and count
INVALID_MOVE statuses along the way. `agent i g` is the move the seeded
policy sampling yields at the i-th agent step of the run on board `g`,
`oppDraw j` the j-th draw of the seeded opponent RNG; `fuel` bounds the
loop (`none` on exhaustion or an engine fault). Returns the final
status, the advanced draw counters and the invalid count. -/
def sessionLoop (agent : Nat → List Nat → Fin 9) (oppDraw : Nat → Nat) :
    Nat → EnvState → Nat → Nat → Nat → Option (Status × Nat × Nat × Nat)
  | 0, _, _, _, _ => none
  | fuel + 1, e, ai, oi, invCount =>
    let a : Int := Int.ofNat (agent ai e.grid).val
    let oi2 := if replyHappens e a then oi + 1 else oi
    match play_against_random e a (oppDraw oi) with
    | none => none
    | some (e2, st) =>
      let inv2 := if st = Status.inv then invCount + 1 else invCount
      if e2.done then some (st, ai + 1, oi2, inv2)
      else sessionLoop agent oppDraw fuel e2 (ai + 1) oi2 inv2

/-- The `for session in range(100)` loop of `rate`: each session resets
the environment, runs the play loop, counts the session's final status
into the win/lose/tie tallies and accumulates its invalid count. -/
def rateSessions (agent : Nat → List Nat → Fin 9) (oppDraw : Nat → Nat)
    (fuel : Nat) : Nat → Nat → Nat → Tally → Option Tally
  | 0, _, _, t => some t
  | s + 1, ai, oi, t =>
    match sessionLoop agent oppDraw fuel resetState ai oi 0 with
    | none => none
    | some (st, ai2, oi2, invCount) =>
      rateSessions agent oppDraw fuel s ai2 oi2
        ⟨t.win + (if st = Status.win then 1 else 0),
         t.lose + (if st = Status.lose then 1 else 0),
         t.tie + (if st = Status.tie then 1 else 0),
         t.invalid + invCount⟩

/-- `rate(env, policy)`: 100 evaluation sessions of the policy against
the seeded random opponent, tallying win/lose/tie final statuses and
invalid moves. -/
def rate (agent : Nat → List Nat → Fin 9) (oppDraw : Nat → Nat)
    (fuel : Nat) : Option Tally :=
  rateSessions agent oppDraw fuel 100 0 0 ⟨0, 0, 0, 0⟩

/-- C9: with the opponent's seeded draw stream and the policy's seeded
sampling stream fixed, two runs of the 100-session evaluation produce
identical win/lose/tie/invalid tallies: the simulation is a
deterministic function of the seeded draws and the policy. -/
theorem rate_deterministic (agent1 agent2 : Nat → List Nat → Fin 9)
    (opp1 opp2 : Nat → Nat) (fuel1 fuel2 : Nat)
    (hA : agent1 = agent2) (hO : opp1 = opp2) (hF : fuel1 = fuel2) :
    rate agent1 opp1 fuel1 = rate agent2 opp2 fuel2 := by
  rw [hA, hO, hF]

/-- A fixed untrained policy stream for the C9 witness: the i-th agent
step moves to cell `i % 9`. -/
def cycleAgent : Nat → List Nat → Fin 9 :=
  fun i _ => ⟨i % 9, Nat.mod_lt i (by omega)⟩

/-- A fixed opponent draw stream for the C9 witness. -/
def zeroDraws : Nat → Nat :=
  fun _ => 0

/-- Witness for C9: two runs with the same streams agree. -/
theorem rate_deterministic_witness :
    rate cycleAgent zeroDraws 200 = rate cycleAgent zeroDraws 200 :=
  rate_deterministic cycleAgent cycleAgent zeroDraws zeroDraws 200 200
    rfl rfl rfl

end TicTacToe
